import Mathlib

/-!
Verification of the PARAMOUNT POD/DMD/mrDMD pipeline (src/PARAMOUNT.py).

Shallow embedding conventions:
* pandas/dask matrices are embedded either as `List` of columns (for the
  column-decimation layer, which only rearranges columns) or as total
  functions `ℕ → ℕ → ℂ` / `ℕ → ℕ → ℝ` together with explicitly tracked
  dimensions (row count, column count); entries outside the tracked range
  are junk and never quantified over.
* the external dense linear-algebra routines (`da.linalg.svd`,
  `np.linalg.eig`, `np.linalg.lstsq`) are opaque numeric oracles, passed in
  as a `NumericOracle`; everything the repository itself computes
  (decimation, the Atilde product, the projection modes, the slow-mode
  filter, the dynamics/prediction assembly, the multiresolution recursion,
  the correlation engine) is embedded concretely.
* floats are embedded as exact reals (`ℝ`), complex floats as `ℂ`;
  persistence (`saveit` / `to_parquet`) is embedded as fields of result
  records: a field of a run record models the on-disk artifact.
-/

namespace Paramount

/-! ## Base.data_decimate and the mutable Base configuration state -/

/-- The instance attributes of `Base` consulted by `data_decimate` and
`set_time`.  `none` models both "attribute never set" and "set to None"
(the code's `try/except` makes those equivalent). -/
structure BaseState where
  data_cutoff : Option ℚ := none
  data_cutin : Option ℚ := none
  data_skip : Option ℕ := none
  dt : Option ℚ := none
  t0 : ℚ := 0

/-- Python `int(q)` (truncation toward zero, which `q.num / q.den` in
T-division is), clamped to ℕ — the code only ever feeds the result to a
forward slice bound, where the nonnegative values used in practice
(percentages of a column count) make the clamp vacuous. -/
def pyIntNat (q : ℚ) : ℕ := (q.num / (q.den : ℤ)).toNat

/-- Python `l[::k]`: every k-th element, starting at index 0. -/
def everyNth (k : ℕ) (l : List α) : List α :=
  (l.enum.filter (fun p => p.1 % k == 0)).map (fun p => p.2)

/-- Source `Base.data_decimate` (PARAMOUNT.py): successively applies the cutoff
slice `[:cutoff]`, the cutin slice `[cutin:]`, the stride `[::skip]`, and
the DMD one-step-pair slices `[:-1]` (X1) and `[1:]` (X2) to the list of
columns.  Each percentage count is computed from the shape of the frame
*at that point* of the chain, exactly as in the source. -/
def data_decimate (s : BaseState) (X1 : Bool := false) (X2 : Bool := false)
    (df : List α) : List α :=
  let df := match s.data_cutoff with
    | none => df
    | some c => df.take (pyIntNat ((df.length : ℚ) * c / 100))
  let df := match s.data_cutin with
    | none => df
    | some c => df.drop (pyIntNat ((df.length : ℚ) * c / 100))
  let df := match s.data_skip with
    | none => df
    | some k => everyNth k df
  let df := if X1 then df.dropLast else df
  let df := if X2 then df.drop 1 else df
  df

/-- Refinement comparison definition, modelled from the spec's words for
claim C6: "both the cutoff and the cutin column counts are computed as
percentages of the total column count of the input matrix".  Differs from
the source, which computes the cutin count from the post-cutoff shape. -/
def data_decimate_claimC6 (s : BaseState) (df : List α) : List α :=
  let n := df.length
  let df := match s.data_cutoff with
    | none => df
    | some c => df.take (pyIntNat ((n : ℚ) * c / 100))
  let df := match s.data_cutin with
    | none => df
    | some c => df.drop (pyIntNat ((n : ℚ) * c / 100))
  match s.data_skip with
  | none => df
  | some k => everyNth k df

/-- Source `Base.set_data_skip`. -/
def set_data_skip (s : BaseState) (k : Option ℕ) : BaseState :=
  { s with data_skip := k }

/-- Source `Base.set_data_cutoff`. -/
def set_data_cutoff (s : BaseState) (c : Option ℚ) : BaseState :=
  { s with data_cutoff := c }

/-- Source `Base.set_data_cutin`. -/
def set_data_cutin (s : BaseState) (c : Option ℚ) : BaseState :=
  { s with data_cutin := c }

/-- Source `Base.set_time`: stores `dt * data_skip` as the effective timestep when
`data_skip` is currently set to a non-None value, plain `dt` otherwise. -/
def set_time (s : BaseState) (dt : ℚ) (t0 : ℚ := 0) : BaseState :=
  match s.data_skip with
  | some k => { s with dt := some (dt * (k : ℚ)), t0 := t0 }
  | none => { s with dt := some dt, t0 := t0 }

/-! ## Function matrices and the numeric oracles

A dask/numpy 2-D array of shape (r, c) is embedded as a total function
`ℕ → ℕ → ℂ` (resp. `ℕ → ℕ → ℝ`) together with the dimensions `r`, `c`
carried separately; every matrix operation of the pipeline states its
contraction length explicitly, exactly the length numpy would use. -/

/-- Complex-valued function matrix. -/
def CMat : Type := ℕ → ℕ → ℂ

/-- Real-valued function matrix. -/
def RMat : Type := ℕ → ℕ → ℝ

/-- Matrix product with explicit inner (contraction) dimension. -/
noncomputable def cmul (inner : ℕ) (A B : CMat) : CMat :=
  fun i j => ∑ t ∈ Finset.range inner, A i t * B t j

/-- Transpose. -/
def ctrans (A : CMat) : CMat := fun i j => A j i

/-- Numpy `np.diag(s ** -1)`: diagonal matrix of elementwise reciprocals. -/
noncomputable def cdiagInv (s : ℕ → ℂ) : CMat := fun i j => if i = j then (s i)⁻¹ else 0

/-- Select the columns of `df` listed in `idxs` (pandas `iloc[:, idxs]`). -/
def colSelect (df : CMat) (idxs : List ℕ) : CMat :=
  fun i j => df i (idxs.getD j 0)

/-- The columns of an `n`-column frame surviving `data_decimate`. -/
def decIndices (s : BaseState) (X1 X2 : Bool) (n : ℕ) : List ℕ :=
  data_decimate s X1 X2 (List.range n)

/-- The external dense linear-algebra routines, which the repository calls
but does not implement: `da.linalg.svd`, `np.linalg.eig`,
`np.linalg.lstsq`.  `svd r c X` is the SVD of the r×c matrix `X` and must
return `u` of shape r×k, `s` of length k and `v` of shape k×c, with
`k = min r c` (dask's thin SVD); `eig k A` eigendecomposes the k×k matrix
`A` into eigenvalues and an eigenvector matrix; `lstsq r k phi x` is the
least-squares solution of the r×k system `phi · b ≈ x`. -/
structure NumericOracle where
  svd : ℕ → ℕ → CMat → CMat × (ℕ → ℂ) × CMat
  eig : ℕ → CMat → (ℕ → ℂ) × CMat
  lstsq : ℕ → ℕ → CMat → (ℕ → ℂ) → (ℕ → ℂ)

/-! ## POD.svd_save_usv -/

/-- The artifacts `svd_save_usv` persists for one variable (`u/`, `s.pkl`,
`v/`), plus the dimensions of the decimated matrix they came from. -/
structure SvdArtifacts where
  u : CMat
  s : ℕ → ℂ
  v : CMat
  /-- Column count of the decimated matrix the SVD was computed from. -/
  ncols : ℕ
  /-- Rank of the thin SVD: `min rows ncols`. -/
  rank : ℕ

/-- Source `POD.svd_save_usv` for one variable: decimate (`dmd_X1` forwards the
X1 flag), run the dense SVD, persist the three factors.  The source
contains no column-count validation whatsoever: the SVD is computed and
persisted unconditionally. -/
def svd_save_usv (o : NumericOracle) (cfg : BaseState) (dmd_X1 : Bool)
    (r n : ℕ) (df : CMat) : SvdArtifacts :=
  let idx := decIndices cfg dmd_X1 false n
  let usv := o.svd r idx.length (colSelect df idx)
  ⟨usv.1, usv.2.1, usv.2.2, idx.length, min r idx.length⟩

/-- Outcome type used to compare `svd_save_usv` against the spec's claimed
failure behaviour (claim C9). -/
inductive SvdOutcome where
  | ok (artifacts : SvdArtifacts) : SvdOutcome
  | insufficientData : SvdOutcome

/-- Source `POD.svd_save_usv` with its (absent) error behaviour made explicit:
the source body has no branch raising an error for small inputs, so the
run always succeeds and persists. -/
def svd_save_usvE (o : NumericOracle) (cfg : BaseState) (dmd_X1 : Bool)
    (r n : ℕ) (df : CMat) : SvdOutcome :=
  SvdOutcome.ok (svd_save_usv o cfg dmd_X1 r n df)

/-- Refinement comparison definition, modelled from the spec's words for
claim C9: "fails with `InsufficientData` if the matrix has fewer than 2
columns", otherwise proceeds like the source. -/
def svd_save_usv_claimC9 (o : NumericOracle) (cfg : BaseState)
    (dmd_X1 : Bool) (r n : ℕ) (df : CMat) : SvdOutcome :=
  if (decIndices cfg dmd_X1 false n).length < 2 then
    SvdOutcome.insufficientData
  else
    SvdOutcome.ok (svd_save_usv o cfg dmd_X1 r n df)

/-! ## DMD.save_Atilde, DMD.save_modes, DMD.save_prediction -/

/-- Source `DMD.save_Atilde` for one variable: loads `u`, `s`, `v` persisted by
`svd_save_usv`, builds the drop-first-column decimation `X2` of the
variable's snapshot matrix, and persists
`Atilde = u.T @ X2 @ v.T @ diag(s ** -1)` (`Atilde.pkl`). -/
noncomputable def save_Atilde (cfg : BaseState) (r n : ℕ)
    (df : CMat) (A : SvdArtifacts) : CMat :=
  let idx2 := decIndices cfg false true n
  let df2 := colSelect df idx2
  cmul A.rank
    (cmul idx2.length (cmul r (ctrans A.u) df2) (ctrans A.v))
    (cdiagInv A.s)

/-- The artifacts `save_modes` persists for one variable: `modes_real/`
and `modes_imag/` (the complex mode matrix `phi` split into two
real-valued tables), `b.pkl` and `lambda.pkl`; `W` is the eigenvector
matrix of `Atilde` (not persisted). -/
structure ModeArtifacts where
  Lambda : ℕ → ℂ
  W : CMat
  phi : CMat
  b : ℕ → ℂ

/-- Source `DMD.save_modes` (projection method) for one variable: eigendecompose
the persisted `Atilde`, set `phi = u @ eigvecs`, split `phi` into real and
imaginary tables, and fit `b = lstsq(phi, df[:, 0])` where `df` is the
*original, non-decimated* snapshot matrix — `init = df[:, 0].compute()` is
taken before any `data_decimate` call. -/
noncomputable def save_modes (o : NumericOracle) (r : ℕ) (df : CMat)
    (A : SvdArtifacts) (Atilde : CMat) : ModeArtifacts :=
  let LW := o.eig A.rank Atilde
  let phi := cmul A.rank A.u LW.2
  let init : ℕ → ℂ := fun i => df i 0
  let b := o.lstsq r A.rank phi init
  ⟨LW.1, LW.2, phi, b⟩

/-- Length of `np.arange(0, end, frame_skip)`: the number of prediction
columns. -/
def predCols (end_ frame_skip : ℕ) : ℕ := (end_ + frame_skip - 1) / frame_skip

/-- Source `DMD.save_prediction` for one variable: recombine the persisted real
and imaginary mode tables into `phi`, set `omega = log(lambda) / dt`,
build the time axis `np.arange(0, end, frame_skip) * dt` and the dynamics
matrix `dynamics[:, i] = b * exp(omega * time[i])`, and persist
`prediction = (phi @ dynamics).real`.  `k` is the number of modes (the
common length of `b`, `lambda` and the mode tables' columns). -/
noncomputable def save_prediction (b Lambda : ℕ → ℂ) (phi_real phi_imag : RMat)
    (k : ℕ) (dt : ℝ) (end_ frame_skip : ℕ) : RMat :=
  let omega : ℕ → ℂ := fun t => Complex.log (Lambda t) / (dt : ℂ)
  let phi : CMat := fun i t =>
    (phi_real i t : ℂ) + Complex.I * (phi_imag i t : ℂ)
  let time : List ℝ :=
    (List.range (predCols end_ frame_skip)).map
      (fun i => ((i * frame_skip : ℕ) : ℝ) * dt)
  let dynamics : CMat := fun t i =>
    b t * Complex.exp (omega t * ((time.getD i 0 : ℝ) : ℂ))
  fun i j => (cmul k phi dynamics i j).re

/-- The result of running `svd_save_usv` (with `dmd_X1=True`), then
`save_Atilde`, then `save_modes` on one variable, as the DMD engine does:
each field models the on-disk artifact the corresponding stage wrote. -/
structure DmdRun where
  svdA : SvdArtifacts
  Atilde : CMat
  modes : ModeArtifacts

/-- The strictly sequential DMD pipeline, stages 1–3, for one variable of
an r×n snapshot matrix `df`. -/
noncomputable def dmd_run (o : NumericOracle) (cfg : BaseState) (r n : ℕ)
    (df : CMat) : DmdRun :=
  let A := svd_save_usv o cfg true r n df
  let At := save_Atilde cfg r n df A
  let M := save_modes o r df A At
  ⟨A, At, M⟩

/-! ## DMD.multires and DMD.multires_predict -/

/-- Real snapshot data viewed as complex input for the pipeline stages. -/
def toC (df : RMat) : CMat := fun i j => ((df i j : ℝ) : ℂ)

/-- The slow-mode mask of `DMD.multires`:
`np.where(np.abs(np.log(eigs) / dt) < rho * 2 * np.pi)[0]` with
`rho = 1 / (dt * slice_size)` — the (ordered) list of eigenvalue indices
below `k` whose `omega` magnitude is under the level's frequency
threshold. -/
noncomputable def slow_mask (k : ℕ) (Lambda : ℕ → ℂ) (dt : ℝ)
    (slice_size : ℕ) : List ℕ :=
  (List.range k).filter
    (fun t =>
      decide (Complex.abs (Complex.log (Lambda t) / (dt : ℂ)) <
        1 / (dt * (slice_size : ℝ)) * 2 * Real.pi))

/-- Everything `multires` leaves on disk for one segment
(`level_{L}/{i}/{var}/...`), after the slow-mode truncation has
overwritten `b.pkl`, `lambda.pkl`, `modes_real` and `modes_imag`:
`svdA`, `Atilde` and `modes` are the stage-1–3 artifacts as first written;
`mask` is the slow-mode index list; `b`, `lambda`, `modes_real`,
`modes_imag` are the filtered artifacts that replace the originals; and
`prediction` is the segment forecast computed *afterwards* from the
filtered files. -/
structure SegmentData where
  input : CMat
  svdA : SvdArtifacts
  Atilde : CMat
  modes : ModeArtifacts
  mask : List ℕ
  b : ℕ → ℂ
  lambda : ℕ → ℂ
  modes_real : RMat
  modes_imag : RMat
  prediction : RMat

/-- One segment of one `multires` level: run stages 1–3 on the segment
matrix `X` (r rows, `slice_size` columns), filter the spectrum by the
slow-mode mask, persist the filtered `b`, `lambda` and mode tables over
the originals, then run `save_prediction` with `end = slice_size` and
`frame_skip = 1` on the filtered artifacts. -/
noncomputable def multiresSegment (o : NumericOracle) (cfg : BaseState)
    (r slice_size : ℕ) (dt : ℝ) (X : CMat) : SegmentData :=
  let A := svd_save_usv o cfg true r slice_size X
  let At := save_Atilde cfg r slice_size X A
  let M := save_modes o r X A At
  let mask := slow_mask A.rank M.Lambda dt slice_size
  let b' : ℕ → ℂ := fun j => M.b (mask.getD j 0)
  let lam' : ℕ → ℂ := fun j => M.Lambda (mask.getD j 0)
  let phiRe : RMat := fun i j => (M.phi i (mask.getD j 0)).re
  let phiIm : RMat := fun i j => (M.phi i (mask.getD j 0)).im
  let pred := save_prediction b' lam' phiRe phiIm mask.length dt slice_size 1
  ⟨X, A, At, M, mask, b', lam', phiRe, phiIm, pred⟩

/-- Column-wise concatenation of the per-segment predictions
(`dd.concat(..., axis=1)` of `2^level` frames of `slice_size` columns). -/
noncomputable def concatSegs (segs : List SegmentData) (slice_size : ℕ) : RMat :=
  fun i j =>
    match segs[j / slice_size]? with
    | some sg => sg.prediction i (j % slice_size)
    | none => 0

/-- Everything one iteration of the `multires` level loop produces:
`input` is the frame the level starts from (the previous level's persisted
file), `segs` the per-segment artifacts, `df_new` the concatenated segment
predictions, and `level_prediction` the frame the level persists under
`level_{L}/{var}/level_prediction` — which the source computes as
`df -= df_new`, i.e. input minus predictions. -/
structure LevelData where
  input : RMat
  slice_size : ℕ
  segs : List SegmentData
  df_new : RMat
  level_prediction : RMat

/-- One iteration of the `multires` level loop on an r×w frame `df`:
`slice_size = w // 2^level`, the frame is split into `2^level` contiguous
column blocks `df.iloc[:, i*slice_size : (i+1)*slice_size]`, each block is
processed by `multiresSegment`, the segment predictions are concatenated,
and `df - df_new` is persisted as this level's `level_prediction`. -/
noncomputable def multiresLevel (o : NumericOracle) (cfg : BaseState)
    (r w : ℕ) (dt : ℝ) (level : ℕ) (df : RMat) : LevelData :=
  let slice_size := w / 2 ^ level
  let segs := (List.range (2 ^ level)).map
    (fun i => multiresSegment o cfg r slice_size dt
      (toC (fun a b => df a (i * slice_size + b))))
  let df_new := concatSegs segs slice_size
  let residual : RMat := fun i j => df i j - df_new i j
  ⟨df, slice_size, segs, df_new, residual⟩

/-- The column count `multires` truncates the snapshot matrix to before
level 0: `end - end % 2 ** levels` (the largest multiple of
`2 ** levels` not exceeding `end`). -/
def multiresTruncWidth (levels end_ : ℕ) : ℕ := end_ - end_ % 2 ^ levels

/-- Restriction of a frame to its first `w` columns
(`df.iloc[:, :w]`; columns past `w` read as zero). -/
noncomputable def truncCols (w : ℕ) (df : RMat) : RMat :=
  fun i j => if j < w then df i j else 0

/-- Predicate deciding whether `n` is a power of two, in executable form (any exponent `m` with
`2 ^ m = n` satisfies `m < n + 1`, so the bounded search is complete —
see `isPowerOfTwoB_iff`). -/
def isPowerOfTwoB (n : ℕ) : Bool :=
  (List.range (n + 1)).any (fun m => 2 ^ m == n)

/-- The `for level in range(0, levels)` loop of `multires`: each level
after the first reads its input from the previous level's persisted
`level_prediction` file. -/
noncomputable def multiresAux (o : NumericOracle) (cfg : BaseState)
    (r w : ℕ) (dt : ℝ) : ℕ → ℕ → RMat → List LevelData
  | 0, _, _ => []
  | remaining + 1, level, df =>
    let L := multiresLevel o cfg r w dt level df
    L :: multiresAux o cfg r w dt remaining (level + 1) L.level_prediction

/-- Source `DMD.multires` for one variable: truncate the r×`end` snapshot matrix
to `end - end % 2**levels` columns, then run the level loop; the returned
list holds, per level, everything the level persisted. -/
noncomputable def multires (o : NumericOracle) (cfg : BaseState)
    (r : ℕ) (dt : ℝ) (levels end_ : ℕ) (df : RMat) : List LevelData :=
  let w := multiresTruncWidth levels end_
  multiresAux o cfg r w dt levels 0 (truncCols w df)

/-- Source `DMD.multires_predict` for one variable: element-wise sum of the
persisted `level_{L}/{var}/level_prediction` frames over all levels
found on disk. -/
noncomputable def multires_predict (run : List LevelData) : RMat :=
  fun i j => (run.map (fun L => L.level_prediction i j)).sum

/-! ## Base.correlate -/

/-- Numpy `np.mean`. -/
noncomputable def npMean (v : List ℝ) : ℝ := v.sum / v.length

/-- Numpy `np.std` (population standard deviation, ddof = 0). -/
noncomputable def npStd (v : List ℝ) : ℝ :=
  Real.sqrt ((v.map (fun x => (x - npMean v) ^ 2)).sum / v.length)

/-- Read a list at a (possibly out-of-range) integer index, 0 outside. -/
noncomputable def zget (l : List ℝ) (i : ℤ) : ℝ :=
  if 0 ≤ i ∧ i < (l.length : ℤ) then l.getD i.toNat 0 else 0

/-- Scipy `signal.correlate(a, b, mode="full")`: entry `k` (for
`k < a.length + b.length - 1`) is `∑ j, a[j] * b[j + (b.length - 1 - k)]`,
summed over the in-range products. -/
noncomputable def fullCorrelate (a b : List ℝ) : List ℝ :=
  (List.range (a.length + b.length - 1)).map
    (fun (k : ℕ) => ∑ j ∈ Finset.range a.length,
      a.getD j 0 * zget b ((j : ℤ) + (b.length : ℤ) - 1 - (k : ℤ)))

/-- Pandas `DataFrame(...).rolling(window=w, center=True, closed="both").mean()`
with the default `min_periods = w`: entry `i` averages the window
`[i + (w-1)/2 - w, i + 1 + (w-1)/2)` of the series (clipped to the series
range, per pandas' fixed-window indexer with `center=True` and the extra
left point from `closed="both"`), and is NaN (`none`) when the window
holds fewer than `w` values. -/
noncomputable def rolling_mean (w : ℕ) (l : List ℝ) : List (Option ℝ) :=
  (List.range l.length).map (fun i =>
    let offset := (w - 1) / 2
    let start := i + offset - w
    let stop := min l.length (i + 1 + offset)
    let cnt := stop - start
    if w ≤ cnt then some ((((l.drop start).take cnt).sum) / (cnt : ℝ))
    else none)

/-- Pandas `Series.argmax`: position of the first occurrence of the
largest non-NaN value; `none` when every value is NaN. -/
noncomputable def argmaxOpt (l : List (Option ℝ)) : Option ℕ :=
  (l.foldl (fun acc x =>
      match x with
      | none => (acc.1, acc.2 + 1)
      | some v =>
        match acc.1 with
        | none => (some (acc.2, v), acc.2 + 1)
        | some p => (if p.2 < v then some (acc.2, v) else some p, acc.2 + 1))
    ((none : Option (ℕ × ℝ)), 0)).1.map (fun p => p.1)

/-- Source `Base.correlate`: mean-center both series, cross-correlate in full
mode, normalize by `len(v1) * std(v1) * std(v2)`; the first component is
the correlation at the center index `int(len(corr) / 2)`, the second the
correlation at the argmax of the moving-average smoothing (window
`max(int(len(v1) * 0.01), 5)`).  When every smoothed value is NaN,
pandas' argmax yields -1 and `corr[-1]` reads the last entry. -/
noncomputable def correlate (v1 v2 : List ℝ) : ℝ × ℝ :=
  let corr := (fullCorrelate (v1.map (fun x => x - npMean v1))
      (v2.map (fun x => x - npMean v2))).map
    (fun x => x / (v1.length : ℝ) / npStd v1 / npStd v2)
  let corr_smooth := rolling_mean (max (v1.length / 100) 5) corr
  let lagindex := (argmaxOpt corr_smooth).getD (corr.length - 1)
  (corr.getD (corr.length / 2) 0, corr.getD lagindex 0)

/-! ## Concrete fixtures used by counterexamples and witnesses -/

/-- A degenerate but well-typed numeric oracle used to run the pipeline's
own plumbing on concrete inputs: `svd` returns the matrix with a single 1
at (0,0), all-one singular values and a zero `v`; `eig` returns all-one
eigenvalues with the identity eigenvector matrix; `lstsq` solves the first
equation exactly and zeroes the rest.  The structural claims hold (or
fail) for every oracle; fixing one makes runs concretely evaluable. -/
noncomputable def oTriv : NumericOracle where
  svd := fun _ _ _ =>
    (fun i j => if i = 0 ∧ j = 0 then 1 else 0, fun _ => 1, fun _ _ => 0)
  eig := fun _ _ => (fun _ => 1, fun i j => if i = j then 1 else 0)
  lstsq := fun _ _ _ x => fun j => if j = 0 then x 0 else 0

/-- The 1×4 snapshot matrix [[8, 4, 2, 6]]. -/
noncomputable def df8426 : RMat :=
  fun i j => if i = 0 then ([8, 4, 2, 6] : List ℝ).getD j 0 else 0

/-! # Theorems

One theorem per claim of CLAIMS.json, with supporting lemmas; witnesses
and counterexamples are closed statements at concrete inputs. -/

/-- C6 counterexample: on a 100-column matrix with `cutoff_pct = 50` and
`cutin_pct = 10`, the source computes the cutin count from the 50
post-cutoff columns (dropping 5, keeping columns 5..49), not from the 100
input columns as the claim states (which would drop 10, keeping
10..49). -/
theorem C6_cutin_percentage_counterexample :
    data_decimate { data_cutoff := some 50, data_cutin := some 10 } false false
        (List.range 100) ≠
      data_decimate_claimC6 { data_cutoff := some 50, data_cutin := some 10 }
        (List.range 100) := by
  have h1 : pyIntNat (((List.range 100).length : ℚ) * 50 / 100) = 50 := by
    norm_num [pyIntNat]
    try decide
  have h2 :
      pyIntNat (((List.take 50 (List.range 100)).length : ℚ) * 10 / 100) = 5 := by
    norm_num [pyIntNat]
    try decide
  have h3 : pyIntNat (((List.range 100).length : ℚ) * 10 / 100) = 10 := by
    norm_num [pyIntNat]
    try decide
  simp only [data_decimate, data_decimate_claimC6, h1, h2, h3]
  decide

/-- C6 (amended): `data_decimate` applies cutoff, then cutin, then stride,
where the cutoff column count is a percentage of the input's total column
count but the cutin count is a percentage of the *post-cutoff* column
count; and on a 100-column matrix `cutoff_pct = 50` followed by
`stride = 2` yields exactly the columns [0, 2, ..., 48]. -/
theorem C6_data_decimate_order :
    (∀ (co ci : ℚ) (k : ℕ) (df : List ℕ),
      data_decimate
          { data_cutoff := some co, data_cutin := some ci, data_skip := some k }
          false false df =
        everyNth k
          ((df.take (pyIntNat ((df.length : ℚ) * co / 100))).drop
            (pyIntNat
              (((df.take (pyIntNat ((df.length : ℚ) * co / 100))).length : ℚ) *
                ci / 100)))) ∧
    data_decimate { data_cutoff := some 50, data_skip := some 2 } false false
        (List.range 100) =
      (List.range 25).map (fun i => 2 * i) := by
  refine ⟨fun co ci k df => rfl, ?_⟩
  have h1 : pyIntNat (((List.range 100).length : ℚ) * 50 / 100) = 50 := by
    norm_num [pyIntNat]
    try decide
  simp only [data_decimate, h1]
  decide

/-- C10: `set_time` stores `dt * data_skip` as the effective timestep
exactly when `data_skip` is currently a non-None value and plain `dt`
otherwise; hence calling `set_data_skip` before `set_time` yields
`dt * k` while calling it after yields `dt` — the stored timestep (used by
every downstream `omega = log(Lambda)/dt`) depends on the call order. -/
theorem C10_set_time_data_skip :
    (∀ (s : BaseState) (dt t0 : ℚ) (k : ℕ),
        s.data_skip = some k →
        (set_time s dt t0).dt = some (dt * (k : ℚ))) ∧
    (∀ (s : BaseState) (dt t0 : ℚ),
        s.data_skip = none → (set_time s dt t0).dt = some dt) ∧
    (∀ (dt : ℚ) (k : ℕ) (s0 : BaseState),
        (set_time (set_data_skip s0 (some k)) dt 0).dt = some (dt * (k : ℚ)) ∧
        (set_data_skip (set_time s0 dt 0) (some k)).dt = (set_time s0 dt 0).dt) := by
  refine ⟨?_, ?_, ?_⟩
  · intro s dt t0 k h
    simp [set_time, h]
  · intro s dt t0 h
    simp [set_time, h]
  · intro dt k s0
    exact ⟨by simp [set_time, set_data_skip], rfl⟩

/-- Witness for C10 at a concrete state: with `data_skip = 3` already set,
`set_time` with `dt = 1/10` stores `3/10`. -/
theorem C10_set_time_data_skip_witness :
    (set_time { data_skip := some 3 } (1/10) 0).dt = some ((1/10 : ℚ) * ((3 : ℕ) : ℚ)) :=
  C10_set_time_data_skip.1 { data_skip := some 3 } (1/10) 0 3 rfl

/-- Reading a mapped range at an in-range index. -/
theorem getD_range_map {α : Type} [Inhabited α] (g : ℕ → α) (d : α)
    (N j : ℕ) (h : j < N) : ((List.range N).map g).getD j d = g j := by
  rw [List.getD_eq_getElem?_getD, List.getElem?_map, List.getElem?_range h]
  rfl

/-- C3: for every oracle, decimation configuration and snapshot matrix,
the `Atilde` persisted by the DMD pipeline equals
`u.T @ X2 @ v.T @ diag(s ** -1)`, where (u, s, v) are exactly the factors
`svd_save_usv` persisted for the decimated matrix with the last column
dropped (`truncate_X1`), and `X2` is the drop-first-column decimation of
the same variable's snapshot matrix. -/
theorem C3_save_Atilde_formula (o : NumericOracle) (cfg : BaseState)
    (r n : ℕ) (df : CMat) :
    (dmd_run o cfg r n df).svdA.u =
        (o.svd r (decIndices cfg true false n).length
          (colSelect df (decIndices cfg true false n))).1 ∧
    (dmd_run o cfg r n df).svdA.s =
        (o.svd r (decIndices cfg true false n).length
          (colSelect df (decIndices cfg true false n))).2.1 ∧
    (dmd_run o cfg r n df).svdA.v =
        (o.svd r (decIndices cfg true false n).length
          (colSelect df (decIndices cfg true false n))).2.2 ∧
    (dmd_run o cfg r n df).Atilde =
      cmul (dmd_run o cfg r n df).svdA.rank
        (cmul (decIndices cfg false true n).length
          (cmul r (ctrans (dmd_run o cfg r n df).svdA.u)
            (colSelect df (decIndices cfg false true n)))
          (ctrans (dmd_run o cfg r n df).svdA.v))
        (cdiagInv (dmd_run o cfg r n df).svdA.s) :=
  ⟨rfl, rfl, rfl, rfl⟩

/-- C4: the amplitude vector `b` persisted by `save_modes` is the
least-squares solution of `phi · b ≈ x0` where `x0 = df[:, 0]` is the
first column of the original, non-decimated snapshot matrix `df` — the
decimations (`truncate_X1` for the SVD, drop-first for `X2`) are never
applied to the column fed to `lstsq`. -/
theorem C4_save_modes_amplitude (o : NumericOracle) (cfg : BaseState)
    (r n : ℕ) (df : CMat) :
    (dmd_run o cfg r n df).modes.b =
      o.lstsq r (dmd_run o cfg r n df).svdA.rank
        (dmd_run o cfg r n df).modes.phi (fun i => df i 0) :=
  rfl

/-- C5: for every positive `end` and `frame_skip`, every persisted
prediction column `j < predCols` equals
`Re(phi · (b ⊙ exp(omega · t_j)))` with `t_j = j * frame_skip * dt` and
`omega = log(Lambda)/dt` (`phi` recombined from the persisted real and
imaginary tables); in particular column 0 equals `Re(phi · b)`. -/
theorem C5_save_prediction_dynamics (b Lambda : ℕ → ℂ)
    (phi_real phi_imag : RMat) (k : ℕ) (dt : ℝ) (end_ f : ℕ)
    (hf : 0 < f) (he : 0 < end_) :
    (∀ i j, j < predCols end_ f →
      save_prediction b Lambda phi_real phi_imag k dt end_ f i j =
        (∑ t ∈ Finset.range k,
          ((phi_real i t : ℂ) + Complex.I * (phi_imag i t : ℂ)) *
            (b t * Complex.exp (Complex.log (Lambda t) / (dt : ℂ) *
              ((((j * f : ℕ) : ℝ) * dt : ℝ) : ℂ)))).re) ∧
    (∀ i, save_prediction b Lambda phi_real phi_imag k dt end_ f i 0 =
      (∑ t ∈ Finset.range k,
        ((phi_real i t : ℂ) + Complex.I * (phi_imag i t : ℂ)) * b t).re) := by
  have hcols : 0 < predCols end_ f := by
    have h1 := (Nat.le_div_iff_mul_le hf).mpr (show 1 * f ≤ end_ + f - 1 by omega)
    rw [predCols]
    omega
  have hgen : ∀ i j, j < predCols end_ f →
      save_prediction b Lambda phi_real phi_imag k dt end_ f i j =
        (∑ t ∈ Finset.range k,
          ((phi_real i t : ℂ) + Complex.I * (phi_imag i t : ℂ)) *
            (b t * Complex.exp (Complex.log (Lambda t) / (dt : ℂ) *
              ((((j * f : ℕ) : ℝ) * dt : ℝ) : ℂ)))).re := by
    intro i j hj
    simp only [save_prediction, cmul]
    rw [getD_range_map _ _ _ _ hj]
  refine ⟨hgen, fun i => ?_⟩
  rw [hgen i 0 hcols]
  norm_num

/-- C9 counterexample: on a 2×1 snapshot matrix (one column, no
decimation configured) `svd_save_usv` does *not* fail: it computes and
persists the SVD, while the spec-modelled variant fails with
`InsufficientData` — the source contains no such guard. -/
theorem C9_no_insufficient_data_guard :
    svd_save_usvE oTriv {} false 2 1 (toC df8426) =
        SvdOutcome.ok (svd_save_usv oTriv {} false 2 1 (toC df8426)) ∧
    svd_save_usv_claimC9 oTriv {} false 2 1 (toC df8426) =
        SvdOutcome.insufficientData := by
  constructor
  · rfl
  · rw [svd_save_usv_claimC9, if_pos]
    decide

/-- C9 (amended): `svd_save_usv` performs no minimum-column-count
validation: whenever the decimated matrix has fewer than 2 columns it
still proceeds to compute and persist the SVD (and it does so for any
column count). -/
theorem C9_svd_always_proceeds (o : NumericOracle) (cfg : BaseState)
    (dmd_X1 : Bool) (r n : ℕ) (df : CMat)
    (_h : (decIndices cfg dmd_X1 false n).length < 2) :
    svd_save_usvE o cfg dmd_X1 r n df =
      SvdOutcome.ok (svd_save_usv o cfg dmd_X1 r n df) :=
  rfl

/-- Witness for C9 at a concrete 2×1 input. -/
theorem C9_svd_always_proceeds_witness :
    (decIndices ({} : BaseState) false false 1).length < 2 ∧
    svd_save_usvE oTriv {} false 2 1 (toC df8426) =
      SvdOutcome.ok (svd_save_usv oTriv {} false 2 1 (toC df8426)) :=
  ⟨by decide, C9_svd_always_proceeds oTriv {} false 2 1 (toC df8426) (by decide)⟩

/-- Soundness of the executable power-of-two test. -/
theorem isPowerOfTwoB_iff (n : ℕ) :
    isPowerOfTwoB n = true ↔ ∃ m, n = 2 ^ m := by
  rw [isPowerOfTwoB, List.any_eq_true]
  constructor
  · rintro ⟨m, _, hm⟩
    exact ⟨m, (Nat.beq_eq_true_eq _ _ |>.mp hm).symm⟩
  · rintro ⟨m, hm⟩
    refine ⟨m, List.mem_range.mpr ?_, by simp [hm]⟩
    have := Nat.lt_two_pow m
    omega

/-- The level loop produces one `LevelData` per level. -/
theorem multiresAux_length (o : NumericOracle) (cfg : BaseState)
    (r w : ℕ) (dt : ℝ) :
    ∀ (rem lvl : ℕ) (df : RMat),
      (multiresAux o cfg r w dt rem lvl df).length = rem := by
  intro rem
  induction rem with
  | zero => intro lvl df; rfl
  | succ m ih =>
    intro lvl df
    simp only [multiresAux, List.length_cons, ih]

/-- Position `t` of the level loop's output is the result of
`multiresLevel` at level `lvl + t`, on *some* input frame (the iterated
residual). -/
theorem multiresAux_getElem? (o : NumericOracle) (cfg : BaseState)
    (r w : ℕ) (dt : ℝ) :
    ∀ (rem lvl : ℕ) (df : RMat) (t : ℕ), t < rem →
      ∃ dfL, (multiresAux o cfg r w dt rem lvl df)[t]? =
        some (multiresLevel o cfg r w dt (lvl + t) dfL) := by
  intro rem
  induction rem with
  | zero => intro lvl df t ht; omega
  | succ m ih =>
    intro lvl df t ht
    match t with
    | 0 => exact ⟨df, by simp [multiresAux]⟩
    | t' + 1 =>
      obtain ⟨dfL, hdfL⟩ := ih (lvl + 1)
        (multiresLevel o cfg r w dt lvl df).level_prediction t' (by omega)
      refine ⟨dfL, ?_⟩
      simpa [multiresAux, Nat.add_comm, Nat.add_assoc, Nat.add_left_comm] using hdfL

/-- The segments of one level. -/
theorem multiresLevel_segs_get (o : NumericOracle) (cfg : BaseState)
    (r w : ℕ) (dt : ℝ) (level : ℕ) (df : RMat) (i : ℕ) (hi : i < 2 ^ level) :
    (multiresLevel o cfg r w dt level df).segs[i]? =
      some (multiresSegment o cfg r (w / 2 ^ level) dt
        (toC (fun a b => df a (i * (w / 2 ^ level) + b)))) := by
  simp [multiresLevel, List.getElem?_map, List.getElem?_range hi]

/-- C7 counterexample: `multires` with `end = 12`, `levels = 2` runs
level 0 on the matrix truncated to `12 - 12 % 4 = 12` columns — a
multiple of `2 ** levels` but *not* a power of two. -/
theorem C7_trunc_not_power_of_two :
    (multires oTriv {} 1 1 2 12 df8426)[0]? =
        some (multiresLevel oTriv {} 1 (multiresTruncWidth 2 12) 1 0
          (truncCols (multiresTruncWidth 2 12) df8426)) ∧
    multiresTruncWidth 2 12 = 12 ∧
    isPowerOfTwoB (multiresTruncWidth 2 12) = false := by
  refine ⟨rfl, by decide, by decide⟩

/-- C7 (amended): `multires` operates at level 0 on the snapshot matrix
column-truncated to `end - end % 2**levels` columns (the largest multiple
of `2**levels` not exceeding `end`, not in general a power of two), and at
each level `L` it splits that level's input into `2^L` contiguous
segments, each of `(end - end % 2**levels) / 2^L` columns. -/
theorem C7_multires_structure (o : NumericOracle) (cfg : BaseState)
    (r : ℕ) (dt : ℝ) (lv e : ℕ) (df : RMat) (hlv : 0 < lv) :
    (multires o cfg r dt lv e df).length = lv ∧
    (multires o cfg r dt lv e df)[0]? =
      some (multiresLevel o cfg r (multiresTruncWidth lv e) dt 0
        (truncCols (multiresTruncWidth lv e) df)) ∧
    (∀ L, L < lv → ∃ dfL,
      (multires o cfg r dt lv e df)[L]? =
        some (multiresLevel o cfg r (multiresTruncWidth lv e) dt L dfL) ∧
      (multiresLevel o cfg r (multiresTruncWidth lv e) dt L dfL).segs.length
          = 2 ^ L ∧
      (multiresLevel o cfg r (multiresTruncWidth lv e) dt L dfL).slice_size
          = multiresTruncWidth lv e / 2 ^ L ∧
      (∀ i, i < 2 ^ L →
        (multiresLevel o cfg r (multiresTruncWidth lv e) dt L dfL).segs[i]? =
          some (multiresSegment o cfg r (multiresTruncWidth lv e / 2 ^ L) dt
            (toC (fun a b =>
              dfL a (i * (multiresTruncWidth lv e / 2 ^ L) + b)))))) := by
  refine ⟨multiresAux_length o cfg r (multiresTruncWidth lv e) dt lv 0
    (truncCols (multiresTruncWidth lv e) df), ?_, ?_⟩
  · obtain ⟨m, rfl⟩ := Nat.exists_eq_succ_of_ne_zero (Nat.pos_iff_ne_zero.mp hlv)
    simp [multires, multiresAux]
  · intro L hL
    obtain ⟨dfL, hdfL⟩ := multiresAux_getElem? o cfg r (multiresTruncWidth lv e)
      dt lv 0 (truncCols (multiresTruncWidth lv e) df) L hL
    rw [Nat.zero_add] at hdfL
    refine ⟨dfL, hdfL, by simp [multiresLevel], rfl, fun i hi =>
      multiresLevel_segs_get o cfg r (multiresTruncWidth lv e) dt L dfL i hi⟩

/-- Witness for C7 at a concrete run (`levels = 1`, `end = 2`). -/
theorem C7_multires_structure_witness :
    0 < 1 ∧
    ((multires oTriv {} 1 1 1 2 df8426).length = 1 ∧
    (multires oTriv {} 1 1 1 2 df8426)[0]? =
      some (multiresLevel oTriv {} 1 (multiresTruncWidth 1 2) 1 0
        (truncCols (multiresTruncWidth 1 2) df8426)) ∧
    (∀ L, L < 1 → ∃ dfL,
      (multires oTriv {} 1 1 1 2 df8426)[L]? =
        some (multiresLevel oTriv {} 1 (multiresTruncWidth 1 2) 1 L dfL) ∧
      (multiresLevel oTriv {} 1 (multiresTruncWidth 1 2) 1 L dfL).segs.length
          = 2 ^ L ∧
      (multiresLevel oTriv {} 1 (multiresTruncWidth 1 2) 1 L dfL).slice_size
          = multiresTruncWidth 1 2 / 2 ^ L ∧
      (∀ i, i < 2 ^ L →
        (multiresLevel oTriv {} 1 (multiresTruncWidth 1 2) 1 L dfL).segs[i]? =
          some (multiresSegment oTriv {} 1 (multiresTruncWidth 1 2 / 2 ^ L) 1
            (toC (fun a b =>
              dfL a (i * (multiresTruncWidth 1 2 / 2 ^ L) + b))))))) :=
  ⟨Nat.one_pos, C7_multires_structure oTriv {} 1 1 1 2 df8426 Nat.one_pos⟩

/-- C2: at every level `L` and segment `i` of a `multires` run, with
`sz = width / 2^L` the level's slice size, `omega = log(Lambda)/dt` and
`rho = 1/(dt·sz)`, exactly the indices with `|omega| < rho·2π` are kept:
the persisted `b.pkl` and `lambda.pkl` entries and `modes_real` /
`modes_imag` columns are the restrictions of the full stage-3 artifacts
to the kept index list, every other index being dropped before the
segment's prediction is computed from the restricted artifacts
(`end = sz`, `frame_skip = 1`). -/
theorem C2_slow_mode_filter (o : NumericOracle) (cfg : BaseState)
    (r : ℕ) (dt : ℝ) (lv e : ℕ) (df : RMat) (L i : ℕ)
    (hL : L < lv) (hi : i < 2 ^ L) :
    ∃ dfL,
      (multires o cfg r dt lv e df)[L]? =
        some (multiresLevel o cfg r (multiresTruncWidth lv e) dt L dfL) ∧
      ∀ sg,
        (multiresLevel o cfg r (multiresTruncWidth lv e) dt L dfL).segs[i]? =
          some sg →
        (∀ t, t ∈ sg.mask ↔ t < sg.svdA.rank ∧
            Complex.abs (Complex.log (sg.modes.Lambda t) / (dt : ℂ)) <
              1 / (dt * ((multiresTruncWidth lv e / 2 ^ L : ℕ) : ℝ)) * 2 *
                Real.pi) ∧
        sg.b = (fun j => sg.modes.b (sg.mask.getD j 0)) ∧
        sg.lambda = (fun j => sg.modes.Lambda (sg.mask.getD j 0)) ∧
        sg.modes_real = (fun a j => (sg.modes.phi a (sg.mask.getD j 0)).re) ∧
        sg.modes_imag = (fun a j => (sg.modes.phi a (sg.mask.getD j 0)).im) ∧
        sg.prediction = save_prediction sg.b sg.lambda sg.modes_real
          sg.modes_imag sg.mask.length dt (multiresTruncWidth lv e / 2 ^ L)
          1 := by
  obtain ⟨dfL, hdfL⟩ := multiresAux_getElem? o cfg r (multiresTruncWidth lv e)
    dt lv 0 (truncCols (multiresTruncWidth lv e) df) L hL
  rw [Nat.zero_add] at hdfL
  refine ⟨dfL, hdfL, ?_⟩
  intro sg hsg
  rw [multiresLevel_segs_get o cfg r (multiresTruncWidth lv e) dt L dfL i hi]
    at hsg
  obtain rfl : multiresSegment o cfg r (multiresTruncWidth lv e / 2 ^ L) dt
      (toC (fun a b => dfL a (i * (multiresTruncWidth lv e / 2 ^ L) + b))) =
      sg := Option.some_injective _ hsg
  refine ⟨?_, rfl, rfl, rfl, rfl, rfl⟩
  intro t
  simp [multiresSegment, slow_mask, List.mem_filter, List.mem_range,
    decide_eq_true_eq]

/-- Witness for C2 at a concrete run (`levels = 1`, `end = 2`, level 0,
segment 0). -/
theorem C2_slow_mode_filter_witness :
    (0 : ℕ) < 1 ∧ (0 : ℕ) < 2 ^ 0 ∧
    (∃ dfL,
      (multires oTriv {} 1 1 1 2 df8426)[0]? =
        some (multiresLevel oTriv {} 1 (multiresTruncWidth 1 2) 1 0 dfL) ∧
      ∀ sg,
        (multiresLevel oTriv {} 1 (multiresTruncWidth 1 2) 1 0 dfL).segs[0]? =
          some sg →
        (∀ t, t ∈ sg.mask ↔ t < sg.svdA.rank ∧
            Complex.abs (Complex.log (sg.modes.Lambda t) / ((1 : ℝ) : ℂ)) <
              1 / ((1 : ℝ) * ((multiresTruncWidth 1 2 / 2 ^ 0 : ℕ) : ℝ)) * 2 *
                Real.pi) ∧
        sg.b = (fun j => sg.modes.b (sg.mask.getD j 0)) ∧
        sg.lambda = (fun j => sg.modes.Lambda (sg.mask.getD j 0)) ∧
        sg.modes_real = (fun a j => (sg.modes.phi a (sg.mask.getD j 0)).re) ∧
        sg.modes_imag = (fun a j => (sg.modes.phi a (sg.mask.getD j 0)).im) ∧
        sg.prediction = save_prediction sg.b sg.lambda sg.modes_real
          sg.modes_imag sg.mask.length 1 (multiresTruncWidth 1 2 / 2 ^ 0) 1) :=
  ⟨Nat.one_pos, Nat.one_pos,
    C2_slow_mode_filter oTriv {} 1 1 1 2 df8426 0 0 Nat.one_pos Nat.one_pos⟩

/-- With all-one eigenvalues and `dt = 1`, the slow-mode mask keeps the
single index 0: `omega = log(1)/1 = 0` and the threshold `2π/sz` is
positive. -/
theorem slow_mask_one (sz : ℕ) (hsz : 0 < sz) :
    slow_mask 1 (fun _ => (1 : ℂ)) 1 sz = [0] := by
  have hszr : (0 : ℝ) < (sz : ℝ) := by exact_mod_cast hsz
  have hpi := Real.pi_pos
  have hc : Complex.abs (Complex.log (1 : ℂ) / ((1 : ℝ) : ℂ)) <
      1 / ((1 : ℝ) * (sz : ℝ)) * 2 * Real.pi := by
    simp [Complex.log_one]
    positivity
  have hd : decide (Complex.abs (Complex.log (1 : ℂ) / ((1 : ℝ) : ℂ)) <
      1 / ((1 : ℝ) * (sz : ℝ)) * 2 * Real.pi) = true := decide_eq_true hc
  rw [slow_mask, show List.range 1 = [0] from rfl, List.filter_singleton]
  simp only [hd]
  rfl

/-- The segment pipeline under the trivial oracle: each segment's
prediction row 0 is constantly the real part of the segment's first
entry. -/
theorem oTriv_segment_prediction (sz : ℕ) (hsz : 2 ≤ sz) (X : CMat) (j : ℕ) :
    (multiresSegment oTriv {} 1 sz 1 X).prediction 0 j = (X 0 0).re := by
  have hlen : (decIndices ({} : BaseState) true false sz).length = sz - 1 := by
    simp [decIndices, data_decimate]
  have hmin : min 1 ((decIndices ({} : BaseState) true false sz).length) = 1 := by
    rw [hlen]
    omega
  have hmask := slow_mask_one sz (by omega)
  simp [multiresSegment, svd_save_usv, save_modes, save_prediction, oTriv,
    cmul, hmin, hmask, Complex.log_one, Complex.ext_iff]

/-- One level under the trivial oracle: the persisted `level_prediction`
entry at row 0, column `j` is the input entry minus the first entry of
`j`'s segment (the segment prediction being constant). -/
theorem oTriv_level_residual (w L : ℕ) (df : RMat) (j : ℕ)
    (hsz : 2 ≤ w / 2 ^ L) (hj : j / (w / 2 ^ L) < 2 ^ L) :
    (multiresLevel oTriv {} 1 w 1 L df).level_prediction 0 j =
      df 0 j - df 0 (j / (w / 2 ^ L) * (w / 2 ^ L)) := by
  have hseg := multiresLevel_segs_get oTriv {} 1 w 1 L df (j / (w / 2 ^ L)) hj
  have hlp : (multiresLevel oTriv {} 1 w 1 L df).level_prediction 0 j =
      df 0 j -
        concatSegs (multiresLevel oTriv {} 1 w 1 L df).segs (w / 2 ^ L) 0 j :=
    rfl
  rw [hlp]
  simp only [concatSegs]
  simp only [hseg, oTriv_segment_prediction (w / 2 ^ L) hsz]
  simp [toC]

/-- C1 fails on the code (code bug): on the 1×4 matrix [[8, 4, 2, 6]]
with `levels = 2`, `end = 4`, `dt = 1` (and an oracle under which every
segment's DMD prediction is the constant continuation of its first
snapshot), the persisted `level_prediction` files hold the *residuals*
`df -= df_new`, so `multires_predict` — their sum — gives -8 at entry
(0, 1), the final level's residual is -4, and their total -12 differs
from the truncated input entry 4: the claimed conservation
`sum + final residual = truncated input` is violated (it would hold for
every oracle had the level predictions `df_new` been persisted). -/
theorem C1_multires_predict_violates_conservation :
    multires_predict (multires oTriv {} 1 1 2 4 df8426) 0 1 = -8 ∧
    ((multires oTriv {} 1 1 2 4 df8426).getLast?.elim 0
        (fun L => L.level_prediction 0 1)) = -4 ∧
    truncCols (multiresTruncWidth 2 4) df8426 0 1 = 4 ∧
    multires_predict (multires oTriv {} 1 1 2 4 df8426) 0 1 +
        ((multires oTriv {} 1 1 2 4 df8426).getLast?.elim 0
          (fun L => L.level_prediction 0 1)) ≠
      truncCols (multiresTruncWidth 2 4) df8426 0 1 := by
  have hrun : multires oTriv {} 1 1 2 4 df8426 =
      [multiresLevel oTriv {} 1 4 1 0 (truncCols 4 df8426),
        multiresLevel oTriv {} 1 4 1 1
          (multiresLevel oTriv {} 1 4 1 0
            (truncCols 4 df8426)).level_prediction] := rfl
  have h00 : truncCols 4 df8426 0 0 = 8 := by norm_num [truncCols, df8426]
  have h01 : truncCols 4 df8426 0 1 = 4 := by norm_num [truncCols, df8426]
  have hR0_0 := oTriv_level_residual 4 0 (truncCols 4 df8426) 0
    (by norm_num) (by norm_num)
  have hR0_1 := oTriv_level_residual 4 0 (truncCols 4 df8426) 1
    (by norm_num) (by norm_num)
  have hR1_1 := oTriv_level_residual 4 1
    (multiresLevel oTriv {} 1 4 1 0 (truncCols 4 df8426)).level_prediction 1
    (by norm_num) (by norm_num)
  norm_num at hR0_0 hR0_1 hR1_1
  rw [h00, h01] at hR0_1
  norm_num at hR0_1
  rw [hR0_1, hR0_0] at hR1_1
  norm_num at hR1_1
  have hlast : (multires oTriv {} 1 1 2 4 df8426).getLast? =
      some (multiresLevel oTriv {} 1 4 1 1
        (multiresLevel oTriv {} 1 4 1 0
          (truncCols 4 df8426)).level_prediction) := by
    rw [hrun]
    rfl
  have hmp : multires_predict (multires oTriv {} 1 1 2 4 df8426) 0 1 = -8 := by
    rw [hrun]
    simp only [multires_predict, List.map_cons, List.map_nil, List.sum_cons,
      List.sum_nil]
    rw [hR0_1, hR1_1]
    norm_num
  have hfin : ((multires oTriv {} 1 1 2 4 df8426).getLast?.elim 0
      (fun L => L.level_prediction 0 1)) = -4 := by
    rw [hlast]
    simpa using hR1_1
  refine ⟨hmp, hfin, h01, ?_⟩
  rw [hmp, hfin, show multiresTruncWidth 2 4 = 4 from rfl, h01]
  norm_num

/-- A mapped list sum as a sum over positions. -/
theorem list_map_sum_eq_range (l : List ℝ) (f : ℝ → ℝ) :
    (l.map f).sum = ∑ j ∈ Finset.range l.length, f (l.getD j 0) := by
  induction l with
  | nil => simp
  | cons a t ih =>
    rw [List.map_cons, List.sum_cons, List.length_cons, Finset.sum_range_succ']
    simp only [List.getD_cons_succ, List.getD_cons_zero, ih]
    ring

/-- Reading a mapped list at an in-range index. -/
theorem getD_map_of_lt (l : List ℝ) (g : ℝ → ℝ) (c : ℕ) (hc : c < l.length)
    (d : ℝ) : (l.map g).getD c d = g (l.getD c 0) := by
  rw [List.getD_eq_getElem?_getD, List.getElem?_map,
    List.getElem?_eq_getElem hc]
  rw [List.getD_eq_getElem?_getD, List.getElem?_eq_getElem hc]
  rfl

/-- The center entry of the full self-correlation of the centered series
is the sum of squared deviations. -/
theorem fullCorrelate_self_center (v : List ℝ) (hn : 0 < v.length) :
    (fullCorrelate (v.map (fun x => x - npMean v))
        (v.map (fun x => x - npMean v))).getD (v.length - 1) 0 =
      (v.map (fun x => (x - npMean v) ^ 2)).sum := by
  set a := v.map (fun x => x - npMean v) with ha
  have ha_len : a.length = v.length := by simp [ha]
  have hidx : v.length - 1 < a.length + a.length - 1 := by
    rw [ha_len]
    omega
  rw [fullCorrelate, getD_range_map _ _ _ _ hidx]
  have hz : ∀ j, j < v.length →
      zget a ((j : ℤ) + (v.length : ℤ) - 1 - ((v.length - 1 : ℕ) : ℤ)) =
        a.getD j 0 := by
    intro j hj
    have hcast : ((v.length - 1 : ℕ) : ℤ) = (v.length : ℤ) - 1 := by
      omega
    rw [hcast]
    have hix : (j : ℤ) + (v.length : ℤ) - 1 - ((v.length : ℤ) - 1) = (j : ℤ) := by
      ring
    rw [hix, zget]
    rw [if_pos ⟨Int.ofNat_nonneg j, by rw [ha_len]; exact_mod_cast hj⟩]
    simp
  rw [ha_len]
  rw [list_map_sum_eq_range]
  refine Finset.sum_congr rfl ?_
  intro j hj
  have hj' := Finset.mem_range.mp hj
  rw [hz j hj']
  have haj : a.getD j 0 = v.getD j 0 - npMean v := by
    rw [ha]
    exact getD_map_of_lt v _ j hj' 0
  rw [haj]
  ring

/-- C8 (amended): for every non-constant series `v`, the first component
of `correlate v v` (the zero-lag correlation) is exactly 1; the second
component is the correlation at the smoothed-argmax lag and need not be 1
(see the counterexample). -/
theorem C8_correlate_self_zero_lag (v : List ℝ)
    (h : ∃ x ∈ v, ∃ y ∈ v, x ≠ y) :
    (correlate v v).1 = 1 := by
  obtain ⟨x, hx, y, hy, hxy⟩ := h
  have hn : 0 < v.length :=
    List.length_pos.mpr (by rintro rfl; exact List.not_mem_nil x hx)
  -- some entry differs from the mean
  have hzne : ∃ z ∈ v, z ≠ npMean v := by
    by_cases hxm : x = npMean v
    · exact ⟨y, hy, fun hym => hxy (hxm.trans hym.symm)⟩
    · exact ⟨x, hx, hxm⟩
  -- the sum of squared deviations is positive
  set S := (v.map (fun x => (x - npMean v) ^ 2)).sum with hS
  have hS_nonneg : 0 ≤ S := by
    refine List.sum_nonneg ?_
    intro q hq
    obtain ⟨z, _, rfl⟩ := List.mem_map.mp hq
    positivity
  have hS_pos : 0 < S := by
    obtain ⟨z, hz, hzm⟩ := hzne
    have hmem : (z - npMean v) ^ 2 ∈ v.map (fun x => (x - npMean v) ^ 2) :=
      List.mem_map_of_mem _ hz
    have hle : (z - npMean v) ^ 2 ≤ S := by
      refine List.single_le_sum ?_ _ hmem
      intro q hq
      obtain ⟨w, _, rfl⟩ := List.mem_map.mp hq
      positivity
    have : 0 < (z - npMean v) ^ 2 :=
      pow_two_pos_of_ne_zero (sub_ne_zero.mpr hzm)
    linarith
  have hnr : (0 : ℝ) < (v.length : ℝ) := by exact_mod_cast hn
  -- std * std = S / n
  have hstd : npStd v * npStd v = S / v.length := by
    rw [npStd, ← hS, Real.mul_self_sqrt (by positivity)]
  -- the center index of the full correlation
  have hlen_fc : (fullCorrelate (v.map (fun x => x - npMean v))
      (v.map (fun x => x - npMean v))).length = v.length + v.length - 1 := by
    simp [fullCorrelate, List.length_map, List.length_range]
  have hcenter : ((fullCorrelate (v.map (fun x => x - npMean v))
      (v.map (fun x => x - npMean v))).map
        (fun x => x / (v.length : ℝ) / npStd v / npStd v)).length / 2 =
      v.length - 1 := by
    rw [List.length_map, hlen_fc]
    omega
  have hcent_lt : v.length - 1 < (fullCorrelate (v.map (fun x => x - npMean v))
      (v.map (fun x => x - npMean v))).length := by
    rw [hlen_fc]
    omega
  show ((fullCorrelate (v.map (fun x => x - npMean v))
      (v.map (fun x => x - npMean v))).map
        (fun x => x / (v.length : ℝ) / npStd v / npStd v)).getD
      (((fullCorrelate (v.map (fun x => x - npMean v))
        (v.map (fun x => x - npMean v))).map
          (fun x => x / (v.length : ℝ) / npStd v / npStd v)).length / 2) 0 = 1
  rw [hcenter, getD_map_of_lt _ _ _ hcent_lt, fullCorrelate_self_center v hn,
    ← hS]
  have hsplit : S / (v.length : ℝ) / npStd v / npStd v =
      (S / (v.length : ℝ)) / (npStd v * npStd v) := by
    ring
  rw [hsplit, hstd]
  exact div_self (ne_of_gt (by positivity))

/-- C8 counterexample: for the non-constant series `v = [1, 0, 0, 1]`,
`correlate v v` is `(1, -1/4)`, not `(1, 1)`: the moving-average
smoothing (window 5, centered, closed on both ends) peaks first at index
2 of the 7-entry cross-correlation, not at the center index 3, and the
correlation there is -1/4. -/
theorem C8_correlate_self_counterexample :
    correlate [1, 0, 0, 1] [1, 0, 0, 1] ≠ (1, 1) := by
  have h_mean : npMean [1, 0, 0, 1] = 1 / 2 := by
    norm_num [npMean]
  have h_cent : ([1, 0, 0, 1] : List ℝ).map
      (fun x => x - npMean [1, 0, 0, 1]) =
      [1 / 2, -(1 / 2), -(1 / 2), 1 / 2] := by
    simp only [h_mean]
    norm_num
  have h_std : npStd [1, 0, 0, 1] = 1 / 2 := by
    have hv : ((([1, 0, 0, 1] : List ℝ).map
        (fun x => (x - npMean [1, 0, 0, 1]) ^ 2)).sum /
          ((([1, 0, 0, 1] : List ℝ).length : ℕ) : ℝ)) = (1 / 2) ^ 2 := by
      simp only [h_mean]
      norm_num
    rw [npStd, hv, Real.sqrt_sq (by norm_num)]
  have h_fc : fullCorrelate [1 / 2, -(1 / 2), -(1 / 2), 1 / 2]
      [1 / 2, -(1 / 2), -(1 / 2), 1 / 2] =
      ([1 / 4, -(1 / 2), -(1 / 4), 1, -(1 / 4), -(1 / 2), 1 / 4] : List ℝ) := by
    rw [fullCorrelate]
    norm_num [zget, Finset.sum_range_succ, List.range_succ,
      show Int.toNat 4 = 4 from rfl, show Int.toNat 5 = 5 from rfl,
      show Int.toNat 6 = 6 from rfl, show Int.toNat 7 = 7 from rfl]
  have h_roll : rolling_mean 5
      ([1 / 4, -(1 / 2), -(1 / 4), 1, -(1 / 4), -(1 / 2), 1 / 4] : List ℝ) =
      [none, none, some (1 / 20), some (-(1 / 24)), some (-(1 / 24)),
        some (1 / 20), none] := by
    rw [rolling_mean]
    norm_num [List.range_succ]
  have h_arg : argmaxOpt [none, none, some (1 / 20), some (-(1 / 24)),
      some (-(1 / 24)), some (1 / 20), none] = some 2 := by
    rw [argmaxOpt]
    norm_num [List.foldl]
  simp only [correlate, h_cent, h_fc, h_std]
  norm_num [h_roll, h_arg]

/-- Witness for C8 at the concrete non-constant series `[0, 1]`. -/
theorem C8_correlate_self_zero_lag_witness :
    (∃ x ∈ ([0, 1] : List ℝ), ∃ y ∈ ([0, 1] : List ℝ), x ≠ y) ∧
    (correlate [0, 1] [0, 1]).1 = 1 :=
  ⟨⟨0, by simp, 1, by simp, by norm_num⟩,
    C8_correlate_self_zero_lag [0, 1]
      ⟨0, by simp, 1, by simp, by norm_num⟩⟩

/-- Witness for C5 at a concrete single-mode system
(`end = frame_skip = 1`). -/
theorem C5_save_prediction_dynamics_witness :
    (0 : ℕ) < 1 ∧
    save_prediction (fun _ => 1) (fun _ => 1) (fun _ _ => 1) (fun _ _ => 0)
        1 1 1 1 0 0 =
      (∑ _t ∈ Finset.range 1,
        (((1 : ℝ) : ℂ) + Complex.I * ((0 : ℝ) : ℂ)) * (1 : ℂ)).re :=
  ⟨Nat.one_pos,
    (C5_save_prediction_dynamics (fun _ => 1) (fun _ => 1) (fun _ _ => 1)
      (fun _ _ => 0) 1 1 1 1 Nat.one_pos Nat.one_pos).2 0⟩

end Paramount
